import Mathlib

/-
Verification development for the fine-tuning script `src/adamW.py`
(rasbt/try-lion-optimizer). The script is straight-line orchestration glue:
it partitions an IMDB sentiment dataset, tokenizes it with a pretrained
HuggingFace tokenizer, and fine-tunes a DistilBERT classifier with
PyTorch Lightning using the AdamW optimizer. The configuration constants
below are transcribed from the source; the behaviour of the external
frameworks (tokenizer padding, DataLoader batching, ModelCheckpoint
selection, Trainer loop, trainer.test) is modelled from the specification,
since that code is not part of the repository.
-/

namespace AdamW

/-! ## Tokenization adapter (source lines 19-20, 105-112) -/

/-- One encoded record as produced by the tokenizer: token ids and the
matching attention mask. -/
structure Encoding where
  input_ids : List Nat
  attention_mask : List Nat
deriving Repr, DecidableEq

/-- Modelled from the spec: length of the longest tokenized sequence in a
batch after truncation to the model maximum length. HuggingFace
`padding=True` pads every sequence of the call to this length. -/
def batchPadLength (encode : String → List Nat) (maxLen : Nat)
    (texts : List String) : Nat :=
  (texts.map (fun t => ((encode t).take maxLen).length)).foldr max 0

/-- Modelled from the spec: pad a (already truncated) id sequence to length
`l` with the pad token, producing the attention mask alongside. -/
def padTo (l padId : Nat) (ids : List Nat) : Encoding :=
  { input_ids := ids ++ List.replicate (l - ids.length) padId
    attention_mask := List.replicate ids.length 1 ++ List.replicate (l - ids.length) 0 }

/-- From the source, `tokenize_text(batch)` returns
`tokenizer(batch["text"], truncation=True, padding=True)`.
Modelled from the spec: with `truncation=True` each sequence is cut at the
model maximum input length `maxLen`; with `padding=True` every sequence of
the call is padded to the longest sequence present in the batch. The
subword encoding itself (`encode`) is the pretrained tokenizer's and is
kept abstract. -/
def tokenize_text (encode : String → List Nat) (maxLen padId : Nat)
    (texts : List String) : List Encoding :=
  let l := batchPadLength encode maxLen texts
  texts.map (fun t => padTo l padId ((encode t).take maxLen))

/-- Modelled from the spec: DistilBERT's maximum input length, printed by
the script as `tokenizer.model_max_length`. -/
def distilbert_model_max_length : Nat := 512

/-! ## DataLoader batching (source lines 123-146) -/

/-- Configuration of a `torch.utils.data.DataLoader` as constructed by the
script; `drop_last` is the PyTorch default `False` (not passed). -/
structure DataLoaderConfig where
  batch_size : Nat
  shuffle : Bool
  num_workers : Nat
  drop_last : Bool
deriving Repr, DecidableEq

/-- From the source: `DataLoader(dataset=train_dataset, batch_size=64,
shuffle=True, num_workers=4)`. -/
def train_loader : DataLoaderConfig :=
  { batch_size := 64, shuffle := true, num_workers := 4, drop_last := false }

/-- From the source: `DataLoader(dataset=val_dataset, batch_size=64,
num_workers=4)`; `shuffle` is the PyTorch default `False`. -/
def val_loader : DataLoaderConfig :=
  { batch_size := 64, shuffle := false, num_workers := 4, drop_last := false }

/-- From the source: `DataLoader(dataset=test_dataset, batch_size=64,
num_workers=4)`; `shuffle` is the PyTorch default `False`. -/
def test_loader : DataLoaderConfig :=
  { batch_size := 64, shuffle := false, num_workers := 4, drop_last := false }

/-- Modelled from the spec: split a list into consecutive chunks of `bs`
elements (the last chunk possibly shorter), as a DataLoader with
`drop_last=False` forms batches from its index sequence. The fuel argument
makes the recursion structural; it is instantiated with the list length. -/
def batchesOfFuel (bs : Nat) : Nat → List α → List (List α)
  | _, [] => []
  | 0, _ :: _ => []
  | fuel + 1, x :: xs => (x :: xs.take (bs - 1)) :: batchesOfFuel bs fuel (xs.drop (bs - 1))

/-- Modelled from the spec: the batches a DataLoader with `drop_last=False`
produces from an index sequence. -/
def batchesOf (bs : Nat) (l : List α) : List (List α) :=
  batchesOfFuel bs l.length l

/-- Modelled from the spec: the sequence of batches one epoch of a
DataLoader yields. A shuffling loader (`shuffle=True`) walks a fresh random
permutation `perm` of the dataset indices; a non-shuffling loader walks the
fixed stored order `0, 1, ..., n-1`. -/
def loaderEpochBatches (cfg : DataLoaderConfig) (perm : List Nat) (n : Nat) :
    List (List Nat) :=
  batchesOf cfg.batch_size (if cfg.shuffle then perm else List.range n)

/-! ### Chunking lemmas -/

theorem batchesOfFuel_join (bs : Nat) :
    ∀ (fuel : Nat) (l : List α), l.length ≤ fuel →
      (batchesOfFuel bs fuel l).flatten = l := by
  intro fuel
  induction fuel with
  | zero =>
    intro l hl
    cases l with
    | nil => rfl
    | cons x xs => simp at hl
  | succ n ih =>
    intro l hl
    cases l with
    | nil => rfl
    | cons x xs =>
      simp only [batchesOfFuel, List.flatten]
      rw [ih (xs.drop (bs - 1))]
      · simp [List.cons_append, List.take_append_drop]
      · have hx : xs.length ≤ n := by
          simpa [Nat.succ_le_succ_iff] using hl
        calc (xs.drop (bs - 1)).length ≤ xs.length := by
              simp [List.length_drop]
          _ ≤ n := hx

theorem batchesOf_join (bs : Nat) (l : List α) :
    (batchesOf bs l).flatten = l :=
  batchesOfFuel_join bs l.length l (Nat.le_refl _)

theorem batchesOfFuel_length_le (bs : Nat) (hbs : 1 ≤ bs) :
    ∀ (fuel : Nat) (l : List α) (b : List α),
      b ∈ batchesOfFuel bs fuel l → b.length ≤ bs ∧ b ≠ [] := by
  intro fuel
  induction fuel with
  | zero =>
    intro l b hb
    cases l with
    | nil => simp [batchesOfFuel] at hb
    | cons x xs => simp [batchesOfFuel] at hb
  | succ n ih =>
    intro l b hb
    cases l with
    | nil => simp [batchesOfFuel] at hb
    | cons x xs =>
      simp only [batchesOfFuel, List.mem_cons] at hb
      rcases hb with hb | hb
      · subst hb
        constructor
        · have : (xs.take (bs - 1)).length ≤ bs - 1 := by
            simp [List.length_take]
          simp only [List.length_cons]
          omega
        · simp
      · exact ih _ _ hb

theorem batchesOf_length_le (bs : Nat) (hbs : 1 ≤ bs) (l : List α)
    (b : List α) (hb : b ∈ batchesOf bs l) : b.length ≤ bs ∧ b ≠ [] :=
  batchesOfFuel_length_le bs hbs l.length l b hb

theorem batchesOfFuel_dropLast_length (bs : Nat) (hbs : 1 ≤ bs) :
    ∀ (fuel : Nat) (l : List α) (b : List α),
      b ∈ (batchesOfFuel bs fuel l).dropLast → b.length = bs := by
  intro fuel
  induction fuel with
  | zero =>
    intro l b hb
    cases l with
    | nil => simp [batchesOfFuel] at hb
    | cons x xs => simp [batchesOfFuel] at hb
  | succ n ih =>
    intro l b hb
    cases l with
    | nil => simp [batchesOfFuel] at hb
    | cons x xs =>
      simp only [batchesOfFuel] at hb
      by_cases hrest : batchesOfFuel bs n (xs.drop (bs - 1)) = []
      · rw [hrest] at hb
        simp at hb
      · rw [List.dropLast_cons_of_ne_nil hrest, List.mem_cons] at hb
        rcases hb with hb | hb
        · subst hb
          have hxs : bs - 1 ≤ xs.length := by
            by_contra hlt
            push_neg at hlt
            have hdrop : xs.drop (bs - 1) = [] :=
              List.drop_eq_nil_of_le (Nat.le_of_lt hlt)
            rw [hdrop] at hrest
            cases n with
            | zero => exact hrest rfl
            | succ m => exact hrest rfl
          simp only [List.length_cons, List.length_take]
          omega
        · exact ih _ _ hb

theorem batchesOf_dropLast_length (bs : Nat) (hbs : 1 ≤ bs) (l : List α)
    (b : List α) (hb : b ∈ (batchesOf bs l).dropLast) : b.length = bs :=
  batchesOfFuel_dropLast_length bs hbs l.length l b hb

/-! ## Checkpoint callback and trainer configuration (source lines 155-172) -/

/-- Configuration of `lightning.pytorch.callbacks.ModelCheckpoint` as the
script constructs it. -/
structure ModelCheckpointConfig where
  save_top_k : Nat
  mode : String
  monitor : String
deriving Repr, DecidableEq

/-- From the source: `ModelCheckpoint(save_top_k=1, mode="max",
monitor="val_acc")`. -/
def checkpoint_callback : ModelCheckpointConfig :=
  { save_top_k := 1, mode := "max", monitor := "val_acc" }

/-- The kinds of Lightning callback this development distinguishes: the
configured model checkpoint, or an early-stopping callback (which the
script never constructs). -/
inductive Callback where
  | modelCheckpoint (cfg : ModelCheckpointConfig)
  | earlyStopping
deriving Repr, DecidableEq

/-- From the source: `callbacks = [ModelCheckpoint(save_top_k=1,
mode="max", monitor="val_acc")]`. -/
def callbacks : List Callback := [Callback.modelCheckpoint checkpoint_callback]

/-- Configuration of `L.Trainer` as the script constructs it (source lines
162-172). String-valued fields record the literal arguments. -/
structure TrainerConfig where
  max_epochs : Nat
  callbacks : List Callback
  precision : String
  accelerator : String
  devices : Nat
  strategy : String
  log_every_n_steps : Nat
  deterministic : Bool
deriving Repr, DecidableEq

/-- From the source: the `trainer` object. -/
def trainer : TrainerConfig :=
  { max_epochs := 10
    callbacks := callbacks
    precision := "16-mixed"
    accelerator := "gpu"
    devices := 4
    strategy := "deepspeed_stage_2"
    log_every_n_steps := 10
    deterministic := true }

/-- Whether a callback list contains an early-stopping callback. -/
def hasEarlyStoppingCallback (cbs : List Callback) : Bool :=
  cbs.any (fun c => match c with
    | Callback.earlyStopping => true
    | Callback.modelCheckpoint _ => false)

/-- Modelled from the spec: the epoch (0-based) at which the fit loop would
stop early. Only an early-stopping callback can request an early stop; with
none configured the answer is `none` whatever the stopping predicate says. -/
def earlyStopEpoch (cbs : List Callback) (wouldStop : Nat → Bool)
    (maxE : Nat) : Option Nat :=
  if hasEarlyStoppingCallback cbs then (List.range maxE).find? wouldStop else none

/-- Modelled from the spec: how many epochs `trainer.fit` runs. It runs
`max_epochs` epochs, cut short only by an external stop after `k` epochs or
by an early-stopping callback. -/
def fitEpochs (cfg : TrainerConfig) (wouldStop : Nat → Bool)
    (externalStop : Option Nat) : Nat :=
  let cap := match externalStop with
    | none => cfg.max_epochs
    | some k => min k cfg.max_epochs
  match earlyStopEpoch cfg.callbacks wouldStop cfg.max_epochs with
  | none => cap
  | some e => min (e + 1) cap

/-! ## Checkpoint selection (spec-modelled ModelCheckpoint semantics) -/

/-- Modelled from the spec: the running best (epoch index, monitored value)
pair maintained by `ModelCheckpoint` with `save_top_k=1, mode="max"`. A new
value replaces the retained snapshot only when it strictly exceeds it, so
ties keep the earlier snapshot. -/
def bestCkptAux (best : Nat × ℚ) (i : Nat) : List ℚ → Nat × ℚ
  | [] => best
  | a :: rest => bestCkptAux (if best.2 < a then (i, a) else best) (i + 1) rest

/-- Modelled from the spec: the checkpoint retained after observing the
per-epoch monitored validation accuracies `accs`, as the (epoch index,
value) pair; `none` when no epoch ran. -/
def bestCheckpoint : List ℚ → Option (Nat × ℚ)
  | [] => none
  | a :: rest => some (bestCkptAux (0, a) 1 rest)

theorem bestCkptAux_ge (rest : List ℚ) :
    ∀ (best : Nat × ℚ) (i : Nat), best.2 ≤ (bestCkptAux best i rest).2 := by
  induction rest with
  | nil => intro best i; exact le_refl _
  | cons a t ih =>
    intro best i
    simp only [bestCkptAux]
    by_cases h : best.2 < a
    · simp only [h, if_pos]
      exact le_trans (le_of_lt h) (ih (i, a) (i + 1))
    · simp only [h, if_neg, not_false_iff]
      exact ih best (i + 1)

theorem bestCkptAux_mem_le (rest : List ℚ) :
    ∀ (best : Nat × ℚ) (i : Nat) (a : ℚ), a ∈ rest →
      a ≤ (bestCkptAux best i rest).2 := by
  induction rest with
  | nil => intro best i a ha; simp at ha
  | cons b t ih =>
    intro best i a ha
    rcases List.mem_cons.mp ha with h | h
    · subst h
      simp only [bestCkptAux]
      by_cases hb : best.2 < a
      · simp only [hb, if_pos]
        exact bestCkptAux_ge t (i, a) (i + 1)
      · simp only [hb, if_neg, not_false_iff]
        exact le_trans (le_of_not_lt hb) (bestCkptAux_ge t best (i + 1))
    · simp only [bestCkptAux]
      exact ih _ (i + 1) a h

theorem bestCkptAux_append (rest : List ℚ) :
    ∀ (best : Nat × ℚ) (i : Nat) (a : ℚ),
      bestCkptAux best i (rest ++ [a]) =
        (if (bestCkptAux best i rest).2 < a
          then (i + rest.length, a) else bestCkptAux best i rest) := by
  induction rest with
  | nil =>
    intro best i a
    simp [bestCkptAux]
  | cons b t ih =>
    intro best i a
    simp only [List.cons_append, bestCkptAux, List.append_eq]
    rw [ih]
    simp only [List.length_cons]
    have hidx : i + 1 + t.length = i + (t.length + 1) := by omega
    rw [hidx]

/-! ## LightningModel, metrics, training and test steps (source lines 23-80) -/

/-- An encoded example as the model consumes it: an encoding plus the true
class label. -/
structure Example where
  enc : Encoding
  label : Nat
deriving Repr, DecidableEq

/-- The running state of a `torchmetrics.Accuracy` accumulator: correct
predictions seen and total predictions seen. -/
structure MetricState where
  correct : Nat
  total : Nat
deriving Repr, DecidableEq

/-- The value a `torchmetrics.Accuracy` accumulator reports: the fraction
of predictions counted correct. -/
def accValue (m : MetricState) : ℚ := (m.correct : ℚ) / (m.total : ℚ)

/-- From the source: `torch.argmax(logits, 1)` per row — the index of the
first maximal score (PyTorch returns the first maximal index on ties). -/
def argmaxIdx (scores : List ℚ) : Nat :=
  match scores with
  | [] => 0
  | s :: rest => (bestCkptAux (0, s) 1 rest).1

/-- Number of examples in `batch` whose predicted class (argmax of the
forward scores) matches the true label; `forward` abstracts the model's
per-example class scores at parameters `p`. -/
def batchCorrect (forward : P → Example → List ℚ) (p : P)
    (batch : List Example) : Nat :=
  batch.countP (fun ex => argmaxIdx (forward p ex) == ex.label)

/-- Update a `torchmetrics.Accuracy` state with one batch of predictions,
as `self.test_acc(predicted_labels, batch["label"])` does. -/
def metricUpdate (forward : P → Example → List ℚ) (p : P)
    (m : MetricState) (batch : List Example) : MetricState :=
  { correct := m.correct + batchCorrect forward p batch
    total := m.total + batch.length }

/-- From the source (`test_step`, lines 63-73): one test step runs the
forward pass, takes the argmax of the logits and feeds predictions into the
accuracy accumulator. It never touches the parameters, which the state
threads through unchanged. -/
def test_step (forward : P → Example → List ℚ)
    (st : P × MetricState) (batch : List Example) : P × MetricState :=
  (st.1, metricUpdate forward st.1 st.2 batch)

/-- Modelled from the spec: one full evaluation pass over the test batches
with the accumulator freshly reset, folding `test_step` over every batch. -/
def runTestPass (forward : P → Example → List ℚ) (p : P)
    (batches : List (List Example)) : P × MetricState :=
  batches.foldl (test_step forward) (p, { correct := 0, total := 0 })

/-- Modelled from the spec: `trainer.test(lightning_model,
dataloaders=test_loader, ckpt_path="best")` first reloads the retained best
checkpoint; when it cannot be loaded (`none`) the run fails without
reporting an accuracy, otherwise one full pass over the test batches
produces the reported accuracy and the (unchanged) parameters. -/
def trainer_test (forward : P → Example → List ℚ)
    (bestCkpt : Option P) (batches : List (List Example)) : Option (ℚ × P) :=
  match bestCkpt with
  | none => none
  | some p =>
    let r := runTestPass forward p batches
    some (accValue r.2, r.1)

/-- The state a training step acts on: model parameters (a list of scalar
parameters), the running train-accuracy accumulator, and a count of
optimizer steps taken so far. -/
structure TrainState where
  params : List ℚ
  train_metric : MetricState
  optimizer_steps : Nat
deriving Repr, DecidableEq

/-- From the source (`configure_optimizers`, lines 75-80) and the AdamW
update rule: one parameter update `p - lr*wd*p - lr*dir`, where the
weight-decay term `lr*wd*p` is decoupled from the gradient-based direction
`dir` (the Adam moment estimate, kept abstract). -/
def adamwParamUpdate (lr wd dir p : ℚ) : ℚ := p - lr * wd * p - lr * dir

/-- One AdamW optimizer step over the whole parameter list, given the
per-parameter Adam directions. -/
def optimizerStep (lr wd : ℚ) (dirs ps : List ℚ) : List ℚ :=
  (ps.zip dirs).map (fun pd => adamwParamUpdate lr wd pd.2 pd.1)

/-- From the source (`training_step`, lines 36-48) together with
Lightning's automatic optimization: one training step runs the forward
pass, updates the running train accuracy with the argmax predictions, and
then applies exactly one optimizer step to the parameters. `adamDir`
abstracts backpropagation and the Adam moment estimates. -/
def training_step (forward : List ℚ → Example → List ℚ)
    (adamDir : List ℚ → List Example → List ℚ) (lr wd : ℚ)
    (st : TrainState) (batch : List Example) : TrainState :=
  { params := optimizerStep lr wd (adamDir st.params batch) st.params
    train_metric := metricUpdate forward st.params st.train_metric batch
    optimizer_steps := st.optimizer_steps + 1 }

/-- The hyperparameter state of `LightningModel`. -/
structure LightningModelConfig where
  learning_rate : ℚ
deriving Repr, DecidableEq

/-- From the source: `LightningModel.__init__(self, model,
learning_rate=5e-5)` stores the learning rate, defaulting to `5e-5` when
the caller passes none. -/
def LightningModelInit (lr : Option ℚ) : LightningModelConfig :=
  { learning_rate := lr.getD (5 / 100000) }

/-- From the source (line 153): `lightning_model = LightningModel(model)`
— constructed without overriding the learning-rate default. -/
def lightning_model : LightningModelConfig := LightningModelInit none

/-- The hyperparameters handed to `torch.optim.AdamW`. -/
structure OptimizerConfig where
  lr : ℚ
  weight_decay : ℚ
deriving Repr, DecidableEq

/-- From the source (`configure_optimizers`, lines 75-80):
`torch.optim.AdamW(..., lr=self.learning_rate, weight_decay=0.1)`. -/
def configure_optimizers (m : LightningModelConfig) : OptimizerConfig :=
  { lr := m.learning_rate, weight_decay := 1 / 10 }

/-- The script parses no command-line arguments and reads no configuration
input: whatever `argv` is, the optimizer it builds is the one from the
hard-coded constants. -/
def pipelineOptimizerConfig (_argv : List String) : OptimizerConfig :=
  configure_optimizers lightning_model

/-! ## Dataset partition guard (source lines 88-91) -/

/-- The on-disk state of the three split files; `none` means the file does
not exist, `some rows` is its byte content (as a row list). -/
structure SplitFiles where
  train_csv : Option (List String)
  val_csv : Option (List String)
  test_csv : Option (List String)
deriving Repr, DecidableEq

/-- Modelled from the spec: `partition_dataset(df)` (from
`local_dataset_utilities`, not under src/) shuffles the full record set
with a fixed seed and writes the three split files; `shuffle` abstracts the
seeded shuffle, and the split proportions are 70/10/20. -/
def partition_dataset (shuffle : List (String × Nat) → List (String × Nat))
    (render : String × Nat → String) (df : List (String × Nat)) : SplitFiles :=
  let shuffled := shuffle df
  let n := shuffled.length
  let nTrain := n * 70 / 100
  let nVal := n * 10 / 100
  { train_csv := some ((shuffled.take nTrain).map render)
    val_csv := some (((shuffled.drop nTrain).take nVal).map render)
    test_csv := some (((shuffled.drop nTrain).drop nVal).map render) }

/-- From the source (lines 90-91): `if not (op.exists("train.csv") and
op.exists("val.csv") and op.exists("test.csv")): partition_dataset(df)`.
Returns the resulting file state and whether the partitioner ran. -/
def mainPartitionGuard (shuffle : List (String × Nat) → List (String × Nat))
    (render : String × Nat → String) (df : List (String × Nat))
    (fs : SplitFiles) : SplitFiles × Bool :=
  if !(fs.train_csv.isSome && fs.val_csv.isSome && fs.test_csv.isSome) then
    (partition_dataset shuffle render df, true)
  else
    (fs, false)

/-! ## Auxiliary lemmas -/

theorem le_foldr_max {l : List Nat} {a : Nat} (h : a ∈ l) :
    a ≤ l.foldr max 0 := by
  induction l with
  | nil => simp at h
  | cons x t ih =>
    rcases List.mem_cons.mp h with h | h
    · subst h
      exact le_max_left _ _
    · exact le_trans (ih h) (le_max_right _ _)

theorem foldr_max_le {l : List Nat} {m : Nat} (h : ∀ a ∈ l, a ≤ m) :
    l.foldr max 0 ≤ m := by
  induction l with
  | nil => exact Nat.zero_le _
  | cons x t ih =>
    simp only [List.foldr_cons]
    exact max_le (h x (List.mem_cons_self _ _))
      (ih (fun a ha => h a (List.mem_cons_of_mem _ ha)))

theorem batchPadLength_le (encode : String → List Nat) (maxLen : Nat)
    (texts : List String) : batchPadLength encode maxLen texts ≤ maxLen := by
  apply foldr_max_le
  intro a ha
  rcases List.mem_map.mp ha with ⟨t, _, rfl⟩
  simp [List.length_take]

theorem runTestPass_foldl_params {P : Type} (forward : P → Example → List ℚ)
    (batches : List (List Example)) :
    ∀ (p : P) (m : MetricState),
      (batches.foldl (test_step forward) (p, m)).1 = p := by
  induction batches with
  | nil => intro p m; rfl
  | cons b bs ih => intro p m; exact ih p _

theorem runTestPass_foldl_total {P : Type} (forward : P → Example → List ℚ)
    (batches : List (List Example)) :
    ∀ (p : P) (m : MetricState),
      (batches.foldl (test_step forward) (p, m)).2.total =
        m.total + (batches.map List.length).sum := by
  induction batches with
  | nil => intro p m; simp
  | cons b bs ih =>
    intro p m
    simp only [List.foldl_cons, List.map_cons, List.sum_cons]
    rw [ih]
    simp [test_step, metricUpdate]
    omega

/-! ## Claim theorems -/

/-- C1: for every run, checkpointing (configured `save_top_k=1, mode="max",
monitor="val_acc"`) retains exactly one snapshot — the one whose monitored
validation accuracy is the highest seen so far: the retained value is ≥
every validation accuracy observed, and appending a later epoch whose
accuracy only ties (or is below) the retained value keeps the earlier
snapshot (first-seen wins). -/
theorem checkpoint_policy_retains_best (accs : List ℚ) (j : Nat) (b : ℚ)
    (h : bestCheckpoint accs = some (j, b)) :
    (checkpoint_callback.save_top_k = 1 ∧ checkpoint_callback.mode = "max"
      ∧ checkpoint_callback.monitor = "val_acc")
    ∧ (∀ a ∈ accs, a ≤ b)
    ∧ (∀ a : ℚ, a ≤ b → bestCheckpoint (accs ++ [a]) = some (j, b)) := by
  cases accs with
  | nil => simp [bestCheckpoint] at h
  | cons a0 rest =>
    have hfit : bestCkptAux (0, a0) 1 rest = (j, b) := by
      simpa [bestCheckpoint] using h
    refine ⟨⟨rfl, rfl, rfl⟩, ?_, ?_⟩
    · intro a ha
      rcases List.mem_cons.mp ha with h0 | hmem
      · subst h0
        have hg := bestCkptAux_ge rest (0, a) 1
        rw [hfit] at hg
        exact hg
      · have hm := bestCkptAux_mem_le rest (0, a0) 1 a hmem
        rw [hfit] at hm
        exact hm
    · intro a ha
      have happ := bestCkptAux_append rest (0, a0) 1 a
      rw [hfit] at happ
      simp only [bestCheckpoint, List.cons_append]
      rw [happ]
      simp [not_lt.mpr ha]

/-- C1 witness at a concrete run: accuracies 0 then 1, a third epoch tying
at 1 — the epoch-1 snapshot is kept. -/
theorem checkpoint_policy_retains_best_instance :
    bestCheckpoint [(0 : ℚ), 1, 1] = some (1, 1) := by
  have h := (checkpoint_policy_retains_best [(0 : ℚ), 1] 1 1 (by decide)).2.2
      1 (by norm_num)
  simpa using h

/-- C2: the final reported test accuracy is computed by one full pass over
the test batches (the accumulator sees every record of every batch) with
the retained checkpoint loaded; the pass leaves the parameters unchanged
(no gradient step, no update), and when the best checkpoint cannot be
reloaded (`none`) no test accuracy is reported. -/
theorem trainer_test_contract {P : Type} (forward : P → Example → List ℚ)
    (batches : List (List Example)) (p : P) :
    trainer_test forward none batches = none
    ∧ trainer_test forward (some p) batches =
        some (accValue (runTestPass forward p batches).2, p)
    ∧ (runTestPass forward p batches).1 = p
    ∧ (runTestPass forward p batches).2.total = (batches.map List.length).sum := by
  have hp := runTestPass_foldl_params forward batches p
      { correct := 0, total := 0 }
  have ht := runTestPass_foldl_total forward batches p
      { correct := 0, total := 0 }
  refine ⟨rfl, ?_, hp, by simpa using ht⟩
  simp only [trainer_test, runTestPass] at hp ⊢
  rw [hp]

/-- C3 counterexample: the claim says every encoding has length equal to
the model maximum input length (512 for DistilBERT); but with
`padding=True` a batch whose longest (truncated) sequence has 1 token is
padded to length 1, not 512. -/
theorem tokenize_pad_length_counterexample :
    (tokenize_text (fun _ => [5]) distilbert_model_max_length 0 ["a"]).map
        (fun e => e.input_ids.length) = [1]
    ∧ (1 : Nat) ≠ distilbert_model_max_length := by
  exact ⟨rfl, by decide⟩

/-- C3 amended: within one tokenizer call, all produced `input_ids` and
`attention_mask` share one identical length — the length of the longest
truncated sequence of the batch — and that common length never exceeds the
model maximum input length (it equals the maximum only when some sequence
reaches it). -/
theorem tokenize_shape_invariant (encode : String → List Nat)
    (maxLen padId : Nat) (texts : List String) :
    (∀ e ∈ tokenize_text encode maxLen padId texts,
        e.input_ids.length = batchPadLength encode maxLen texts
        ∧ e.attention_mask.length = batchPadLength encode maxLen texts)
    ∧ batchPadLength encode maxLen texts ≤ maxLen := by
  refine ⟨?_, batchPadLength_le encode maxLen texts⟩
  intro e he
  rcases List.mem_map.mp he with ⟨t, ht, rfl⟩
  have hlen : ((encode t).take maxLen).length ≤ batchPadLength encode maxLen texts := by
    apply le_foldr_max
    exact List.mem_map.mpr ⟨t, ht, rfl⟩
  constructor
  · simp only [padTo, List.length_append, List.length_replicate]
    omega
  · simp only [padTo, List.length_append, List.length_replicate]
    omega

/-- C3 witness at a concrete call: one text encoding to a single token
under maximum length 4 — both outputs have the common batch length, which
is ≤ 4. -/
theorem tokenize_shape_invariant_instance :
    ((Encoding.mk [7] [1]).input_ids.length =
        batchPadLength (fun _ => [7]) 4 ["x"]
      ∧ (Encoding.mk [7] [1]).attention_mask.length =
        batchPadLength (fun _ => [7]) 4 ["x"])
    ∧ batchPadLength (fun _ => [7]) 4 ["x"] ≤ 4 :=
  ⟨(tokenize_shape_invariant (fun _ => [7]) 4 0 ["x"]).1
      (Encoding.mk [7] [1]) (by decide),
   (tokenize_shape_invariant (fun _ => [7]) 4 0 ["x"]).2⟩

/-- C4: the partition step is idempotent — when the train, validation and
test split files all already exist, the guard does not invoke the
partitioner (flag `false`) and leaves the file state byte-identical. -/
theorem partition_guard_idempotent
    (shuffle : List (String × Nat) → List (String × Nat))
    (render : String × Nat → String) (df : List (String × Nat))
    (fs : SplitFiles) (htrain : fs.train_csv.isSome)
    (hval : fs.val_csv.isSome) (htest : fs.test_csv.isSome) :
    mainPartitionGuard shuffle render df fs = (fs, false) := by
  unfold mainPartitionGuard
  simp [htrain, hval, htest]

/-- C4 witness: with all three split files present, the guard returns them
unchanged and reports that the partitioner did not run. -/
theorem partition_guard_idempotent_instance :
    mainPartitionGuard id (fun _ => "") []
        (SplitFiles.mk (some []) (some []) (some [])) =
      (SplitFiles.mk (some []) (some []) (some []), false) :=
  partition_guard_idempotent id (fun _ => "") []
    (SplitFiles.mk (some []) (some []) (some [])) rfl rfl rfl

/-- C5: with `max_epochs=10` and a callback list containing no
early-stopping callback, the fit loop runs exactly 10 epochs whatever the
would-stop predicate says, unless an external stop cuts it short. -/
theorem trainer_runs_ten_epochs (wouldStop : Nat → Bool) :
    fitEpochs trainer wouldStop none = 10
    ∧ (∀ k : Nat, fitEpochs trainer wouldStop (some k) = min k 10)
    ∧ hasEarlyStoppingCallback trainer.callbacks = false
    ∧ trainer.max_epochs = 10 := by
  refine ⟨?_, ?_, rfl, rfl⟩
  · simp [fitEpochs, earlyStopEpoch, hasEarlyStoppingCallback, trainer,
      callbacks]
  · intro k
    simp [fitEpochs, earlyStopEpoch, hasEarlyStoppingCallback, trainer,
      callbacks]

/-- C7: one training step runs the forward pass, updates the running train
accuracy with the count of argmax-matching predictions (a fraction of the
examples seen), and applies exactly one optimizer step, each parameter
updated by the decoupled rule `(1 - lr*wd)*p - lr*dir` in which the decay
term does not pass through the gradient direction. -/
theorem training_step_contract (forward : List ℚ → Example → List ℚ)
    (adamDir : List ℚ → List Example → List ℚ) (lr wd : ℚ)
    (st : TrainState) (batch : List Example) :
    (training_step forward adamDir lr wd st batch).optimizer_steps =
        st.optimizer_steps + 1
    ∧ (training_step forward adamDir lr wd st batch).train_metric.correct =
        st.train_metric.correct + batchCorrect forward st.params batch
    ∧ (training_step forward adamDir lr wd st batch).train_metric.total =
        st.train_metric.total + batch.length
    ∧ batchCorrect forward st.params batch ≤ batch.length
    ∧ (training_step forward adamDir lr wd st batch).params =
        optimizerStep lr wd (adamDir st.params batch) st.params
    ∧ (∀ dir p : ℚ, adamwParamUpdate lr wd dir p = (1 - lr * wd) * p - lr * dir)
    ∧ (∀ m : MetricState, accValue m = (m.correct : ℚ) / (m.total : ℚ)) := by
  refine ⟨rfl, rfl, rfl, ?_, rfl, ?_, fun m => rfl⟩
  · exact List.countP_le_length _
  · intro dir p
    unfold adamwParamUpdate
    ring

/-- C8 counterexample: the claim says every batch of the shuffled epoch has
fixed size 64; with a 70-record split the epoch ends in a 6-record batch. -/
theorem train_batches_size_counterexample :
    ¬ (∀ b ∈ loaderEpochBatches train_loader (List.range 70) 70,
        b.length = 64) := by
  decide

/-- C8 amended: the training loader iterates the shuffled epoch order in
consecutive batches of size 64 — except possibly the final batch of the
epoch, which holds the remaining records when 64 does not divide the split
size — and the batches cover the epoch order exactly, no batch reused or
dropped. -/
theorem train_batches_cover_epoch (perm : List Nat) (n : Nat) :
    train_loader.batch_size = 64 ∧ train_loader.shuffle = true
    ∧ (loaderEpochBatches train_loader perm n).flatten = perm
    ∧ (∀ b ∈ (loaderEpochBatches train_loader perm n).dropLast,
        b.length = 64)
    ∧ (∀ b ∈ loaderEpochBatches train_loader perm n,
        b.length ≤ 64 ∧ b ≠ []) := by
  refine ⟨rfl, rfl, ?_, ?_, ?_⟩
  · simpa [loaderEpochBatches, train_loader] using
      batchesOf_join 64 perm
  · intro b hb
    exact batchesOf_dropLast_length 64 (by norm_num) perm b
      (by simpa [loaderEpochBatches, train_loader] using hb)
  · intro b hb
    exact batchesOf_length_le 64 (by norm_num) perm b
      (by simpa [loaderEpochBatches, train_loader] using hb)

/-- C8 witness at a concrete epoch of 70 records: the batches flatten back
to the epoch order, and the (non-final) first batch has exactly 64
records. -/
theorem train_batches_cover_epoch_instance :
    (loaderEpochBatches train_loader (List.range 70) 70).flatten =
        List.range 70
    ∧ (List.range 64).length = 64 :=
  ⟨(train_batches_cover_epoch (List.range 70) 70).2.2.1,
   (train_batches_cover_epoch (List.range 70) 70).2.2.2.1
      (List.range 64) (by decide)⟩

/-- C9: the validation and test loaders are built without `shuffle` (so it
is the default `False`), unlike the training loader: whatever permutation a
run would draw, their epoch batches are identical and enumerate the stored
dataset order `0, ..., n-1`. -/
theorem eval_loaders_fixed_order (perm1 perm2 : List Nat) (n : Nat) :
    val_loader.shuffle = false ∧ test_loader.shuffle = false
    ∧ train_loader.shuffle = true
    ∧ loaderEpochBatches val_loader perm1 n =
        loaderEpochBatches val_loader perm2 n
    ∧ loaderEpochBatches test_loader perm1 n =
        loaderEpochBatches test_loader perm2 n
    ∧ (loaderEpochBatches val_loader perm1 n).flatten = List.range n
    ∧ (loaderEpochBatches test_loader perm1 n).flatten = List.range n := by
  refine ⟨rfl, rfl, rfl, rfl, rfl, ?_, ?_⟩
  · simpa [loaderEpochBatches, val_loader] using
      batchesOf_join 64 (List.range n)
  · simpa [loaderEpochBatches, test_loader] using
      batchesOf_join 64 (List.range n)

/-- C10: the optimizer hyperparameters are fixed: the model is constructed
without overriding the learning-rate default, so the learning rate is
always `5e-5` and the decoupled weight-decay coefficient always `0.1`, and
no program input (argument vector) can change them. -/
theorem optimizer_hyperparameters_fixed (argv1 argv2 : List String) :
    pipelineOptimizerConfig argv1 = pipelineOptimizerConfig argv2
    ∧ (pipelineOptimizerConfig argv1).lr = 5 / 100000
    ∧ (pipelineOptimizerConfig argv1).weight_decay = 1 / 10
    ∧ lightning_model.learning_rate = 5 / 100000 :=
  ⟨rfl, rfl, rfl, rfl⟩

end AdamW
